import Mathlib

/-!
# kssh: the signing handshake (`GetSignedKey`) and `LoadConfig`

A shallow embedding of `kssh/bot.go` and of `LoadConfig` from `kssh/config.go`.

* Go strings are modelled by `String`; Go `error` values by their message text.
* The chat connection, the KBFS and the JSON codec are the environment: their
  answers are fields of `World` and `KBFS`.
* The foreground loop of `GetSignedKey` is a structural recursion over the list
  of loop iterations the environment offers; when the list is exhausted the call
  has not returned (the next `sub.Read()` is still pending).
* The probing goroutine is modelled separately as `prober`.
-/

namespace Kssh

/-- Go `error` values, identified with their message text. -/
abbrev Error := String

/-- Comparison `strings.HasPrefix(s, pre)`. -/
def HasPrefix (s pre : String) : Bool :=
  pre.data.isPrefixOf s.data

/-! ## The `shared` package -/

/-- Modelled from the spec: the declaration of `shared.SignatureRequest` is missing;
the request carries a correlation id (`UUID`, the only field `GetSignedKey` reads)
and parameters that are opaque here. -/
structure SignatureRequest where
  UUID : String
  SSHPublicKey : String
deriving DecidableEq, Repr

/-- Modelled from the spec: the declaration of `shared.SignatureResponse` is missing;
the response carries a correlation id (`UUID`, the only field `GetSignedKey` reads)
and a result payload. -/
structure SignatureResponse where
  UUID : String
  SignedKey : String
deriving DecidableEq, Repr

/-- The value `shared.SignatureResponse{}`. -/
def SignatureResponse.empty : SignatureResponse := ⟨"", ""⟩

/-- The constants and the parser of package `shared` that `GetSignedKey` uses. Their
definitions live outside `kssh`, so they are parameters of the development. -/
structure Shared where
  AckRequest : String
  Ack : String
  SignatureRequestPreamble : String
  SignatureResponsePreamble : String
  ParseSignatureResponse : String → Except Error SignatureResponse

/-! ## Configuration -/

/-- The struct `ConfigFile` of `config.go`. -/
structure ConfigFile where
  TeamName : String
  ChannelName : String
  BotName : String
deriving DecidableEq, Repr

/-- The zero value `ConfigFile{}`. -/
def ConfigFile.zero : ConfigFile := ⟨"", "", ""⟩

/-! ## The chat environment -/

/-- The fields of a `kbchat.SubscriptionMessage` that `GetSignedKey` inspects. -/
structure Message where
  contentType : String
  senderUsername : String
  body : String
deriving DecidableEq, Repr

/-- One iteration of the foreground loop as the environment presents it.
`elapsed` is the value of `time.Since(startTime)` in nanoseconds at the check at the top
of the iteration, `read` is what the following `sub.Read()` returns, and `deliveredAt`
is the time since `startTime` (nanoseconds) at which that read returns. The code never
looks at `deliveredAt`; it is there so that delivery times can be spoken about. -/
structure Inbound where
  elapsed : Nat
  deliveredAt : Nat
  read : Except Error Message

/-- The answers of the environment during one invocation: of `kbchat.Start`, of
`ListenForNewTextMessages`, of `json.Marshal` on the request and of
`SendMessageByTeamName` (by team name and text). -/
structure World where
  start : Option Error
  listen : Option Error
  marshal : SignatureRequest → Except Error String
  send : String → String → Option Error

/-- The constant `5*time.Second` in nanoseconds. -/
def deadline : Nat := 5 * 1000000000

/-- What the foreground task does to the outside. -/
inductive Effect where
  | startProber
  | stopProber
  | sendMessage (team body : String)
deriving DecidableEq, Repr

/-- The pair a Go function `(shared.SignatureResponse, error)` returns. -/
abbrev Returned := SignatureResponse × Option Error

/-- Result of the body of one loop iteration after a successful read. -/
inductive Step where
  | cont (hasBeenAcked : Bool) (effects : List Effect)
  | ret (r : Returned) (hasBeenAcked : Bool) (effects : List Effect)
deriving DecidableEq, Repr

/-- Lines 65-101 of `bot.go`: the loop body after `sub.Read()` succeeded. -/
def handleMessage (sh : Shared) (w : World) (config : ConfigFile) (request : SignatureRequest)
    (hasBeenAcked : Bool) (msg : Message) : Step :=
  if msg.contentType ≠ "text" then .cont hasBeenAcked []
  else if msg.senderUsername ≠ config.BotName then .cont hasBeenAcked []
  else
    let messageBody := msg.body
    if messageBody = sh.Ack ∧ hasBeenAcked = false then
      match w.marshal request with
      | .error err => .ret (SignatureResponse.empty, some err) true [.stopProber]
      | .ok marshaledRequest =>
        let frame := sh.SignatureRequestPreamble ++ marshaledRequest
        match w.send config.TeamName frame with
        | some err =>
          .ret (SignatureResponse.empty, some err) true
            [.stopProber, .sendMessage config.TeamName frame]
        | none => .cont true [.stopProber, .sendMessage config.TeamName frame]
    else if HasPrefix messageBody sh.SignatureResponsePreamble then
      match sh.ParseSignatureResponse messageBody with
      | .error err => .ret (SignatureResponse.empty, some err) hasBeenAcked []
      | .ok resp =>
        if resp.UUID ≠ request.UUID then .cont hasBeenAcked []
        else .ret (resp, none) hasBeenAcked []
    else .cont hasBeenAcked []

/-- Observable summary of (a prefix of) one invocation. `ret = none` means that the call
has not returned after the iterations given. -/
structure Outcome where
  ret : Option Returned
  effects : List Effect
  hasBeenAcked : Bool
  reads : Nat
deriving DecidableEq, Repr

/-- The message of the timeout error. -/
def timeoutError : Error := "timed out while waiting for a response from the CA"

/-- Lines 56-102 of `bot.go`: the `for` loop, started with the given value of
`hasBeenAcked`. -/
def loop (sh : Shared) (w : World) (config : ConfigFile) (request : SignatureRequest) :
    Bool → List Inbound → Outcome
  | hasBeenAcked, [] => ⟨none, [], hasBeenAcked, 0⟩
  | hasBeenAcked, ev :: rest =>
    if ev.elapsed > deadline then
      ⟨some (SignatureResponse.empty, some timeoutError), [], hasBeenAcked, 0⟩
    else
      match ev.read with
      | .error err =>
        ⟨some (SignatureResponse.empty, some ("failed to read message: " ++ err)), [],
          hasBeenAcked, 1⟩
      | .ok msg =>
        match handleMessage sh w config request hasBeenAcked msg with
        | .ret r acked effects => ⟨some r, effects, acked, 1⟩
        | .cont acked effects =>
          let o := loop sh w config request acked rest
          ⟨o.ret, effects ++ o.effects, o.hasBeenAcked, o.reads + 1⟩

/-- The function `GetSignedKey` of `bot.go`, run against the loop iterations `inbound`. -/
def GetSignedKey (sh : Shared) (w : World) (config : ConfigFile)
    (request : SignatureRequest) (inbound : List Inbound) : Outcome :=
  match w.start with
  | some err =>
    ⟨some (SignatureResponse.empty, some ("error starting Keybase chat: " ++ err)), [], false, 0⟩
  | none =>
    match w.listen with
    | some err =>
      ⟨some (SignatureResponse.empty, some ("error subscribing to messages: " ++ err)), [],
        false, 0⟩
    | none =>
      let o := loop sh w config request false inbound
      ⟨o.ret, .startProber :: o.effects, o.hasBeenAcked, o.reads⟩

/-! ## The probing goroutine -/

/-- What the probing goroutine does. -/
inductive ProberEvent where
  | probe (team body : String)
  | sleep (ms : Nat)
  | exit
deriving DecidableEq, Repr

/-- Lines 37-50 of `bot.go`: the loop of the goroutine, with the current value of
`numberSent`. The list tells, for each iteration, whether the receive from
`terminateRoutineCh` is ready at the `select`; the trace covers the iterations listed.
A failed send is only printed. `numberSent` is a Go `int`; reaching a count `n` takes
more than `5 * n * n` milliseconds of sleeping, so it stays far from the range limit. -/
def proberLoop (sh : Shared) (config : ConfigFile) : List Bool → Nat → List ProberEvent
  | [], _ => []
  | true :: _, _ => [.exit]
  | false :: rest, numberSent =>
    .probe config.TeamName sh.AckRequest ::
      .sleep (100 + 10 * (numberSent + 1)) ::
        proberLoop sh config rest (numberSent + 1)

/-- Lines 34-51 of `bot.go`: the goroutine, which starts with `numberSent := 0`. -/
def prober (sh : Shared) (config : ConfigFile) (stopReady : List Bool) : List ProberEvent :=
  proberLoop sh config stopReady 0

/-- Number of probes in a trace. -/
def numProbes (t : List ProberEvent) : Nat :=
  t.countP (fun e => match e with | .probe _ _ => true | _ => false)

/-! ## `LoadConfig` -/

/-- The answers of the environment to `LoadConfig`: of `KBFSRead` and of `json.Unmarshal`
into a zero `ConfigFile` (the struct as left by the decoder, and the error). File
contents are modelled by the string they convert to. -/
structure KBFS where
  KBFSRead : String → Except Error String
  Unmarshal : String → ConfigFile × Option Error

/-- What `LoadConfig` returns, with the list of files it asked KBFS for. -/
structure LoadResult where
  cf : ConfigFile
  err : Option Error
  kbfsReads : List String
deriving DecidableEq, Repr

/-- The function `LoadConfig` of `config.go`. -/
def LoadConfig (fs : KBFS) (kbfsFilename : String) : LoadResult :=
  let cf := ConfigFile.zero
  if !HasPrefix kbfsFilename "/keybase/" then
    ⟨cf, some "cannot load a kssh config from outside of KBFS", []⟩
  else
    match fs.KBFSRead kbfsFilename with
    | .error err =>
      ⟨cf, some ("found a config file at " ++ kbfsFilename ++ " that could not be read: " ++ err),
        [kbfsFilename]⟩
    | .ok bytes =>
      match fs.Unmarshal bytes with
      | (cf, some err) =>
        ⟨cf, some ("failed to parse config file at " ++ kbfsFilename ++ ": " ++ err),
          [kbfsFilename]⟩
      | (cf, none) =>
        if cf.TeamName = "" ∨ cf.BotName = "" then
          ⟨cf, some ("found a config file at " ++ kbfsFilename ++ " that is missing data: " ++ bytes),
            [kbfsFilename]⟩
        else ⟨cf, none, [kbfsFilename]⟩

/-! ## Predicates on the inbound stream -/

/-- The iteration passes the deadline check and its read delivers a text message from
`config.BotName`. -/
def FromBot (config : ConfigFile) (ev : Inbound) (body : String) : Prop :=
  ev.elapsed ≤ deadline ∧ ev.read = .ok ⟨"text", config.BotName, body⟩

/-- The read delivers the Ack sentinel as a text message from `config.BotName`. -/
def IsAck (sh : Shared) (config : ConfigFile) (ev : Inbound) : Prop :=
  ev.read = .ok ⟨"text", config.BotName, sh.Ack⟩

/-- The read delivers a text message from `config.BotName` that starts with the Response
preamble and parses to `resp`. -/
def IsResponse (sh : Shared) (config : ConfigFile) (ev : Inbound)
    (resp : SignatureResponse) : Prop :=
  ∃ body, ev.read = .ok ⟨"text", config.BotName, body⟩ ∧
    HasPrefix body sh.SignatureResponsePreamble = true ∧
    sh.ParseSignatureResponse body = .ok resp

/-- The message is dropped by the content-type or the sender filter. -/
def Filtered (config : ConfigFile) (msg : Message) : Prop :=
  msg.contentType ≠ "text" ∨ msg.senderUsername ≠ config.BotName

/-- Number of `SendMessageByTeamName` calls among the effects. -/
def requestSends (effects : List Effect) : Nat :=
  effects.countP (fun e => match e with | .sendMessage _ _ => true | _ => false)

/-- The iteration passes the deadline check and its read delivers a message that the
loop body drops: one removed by a filter, one that does not start with the Response
preamble, or a well-formed Response frame with another UUID. -/
def Dropped (sh : Shared) (config : ConfigFile) (request : SignatureRequest)
    (ev : Inbound) : Prop :=
  ev.elapsed ≤ deadline ∧ ∃ msg, ev.read = .ok msg ∧
    (Filtered config msg ∨ HasPrefix msg.body sh.SignatureResponsePreamble = false ∨
      ∃ r, sh.ParseSignatureResponse msg.body = .ok r ∧ r.UUID ≠ request.UUID)

/-- The two iterations agree on the clock reading at the check and on what is read, up to
the body of a message that a filter removes. -/
def SameUpToFiltered (config : ConfigFile) (e1 e2 : Inbound) : Prop :=
  e1.elapsed = e2.elapsed ∧
    (e1.read = e2.read ∨
      ∃ m1 m2, e1.read = .ok m1 ∧ e2.read = .ok m2 ∧ m1.contentType = m2.contentType ∧
        m1.senderUsername = m2.senderUsername ∧ Filtered config m1)

/-- The stream is consistent with a clock that does not run backwards: each check happens
no earlier than the previous delivery, each delivery no earlier than its check. -/
def chronological : Nat → List Inbound → Bool
  | _, [] => true
  | t, ev :: rest =>
    decide (t ≤ ev.elapsed) && decide (ev.elapsed ≤ ev.deliveredAt) &&
      chronological ev.deliveredAt rest

/-! ## Sample environment -/

/-- A sample instance of the `shared` constants, with a parser that knows two frames. -/
def sampleShared : Shared where
  AckRequest := "AckRequest"
  Ack := "Ack"
  SignatureRequestPreamble := "Signature_Request:"
  SignatureResponsePreamble := "Signature_Response:"
  ParseSignatureResponse := fun s =>
    if s = "Signature_Response:u1" then .ok ⟨"u1", "cert1"⟩
    else if s = "Signature_Response:u2" then .ok ⟨"u2", "cert2"⟩
    else .error "invalid character"

def sampleConfig : ConfigFile := ⟨"team", "chan", "bot"⟩

def sampleRequest : SignatureRequest := ⟨"u1", "key"⟩

def sampleWorld : World where
  start := none
  listen := none
  marshal := fun r => .ok r.UUID
  send := fun _ _ => none

def botText (body : String) : Message := ⟨"text", "bot", body⟩

/-- A sample KBFS holding one well-formed config file. -/
def sampleKBFS : KBFS where
  KBFSRead := fun f =>
    if f = "/keybase/team/t/kssh-client.config" then .ok "conf" else .error "no such file"
  Unmarshal := fun b =>
    if b = "conf" then (⟨"team", "chan", "bot"⟩, none)
    else (ConfigFile.zero, some "unexpected end of JSON input")

/-! ## Lemmas on strings -/

theorem hasPrefix_append (p x : String) : HasPrefix (p ++ x) p = true := by
  unfold HasPrefix
  rw [String.data_append, List.isPrefixOf_iff_prefix]
  exact List.prefix_append _ _

theorem ne_of_hasPrefix {sh : Shared} {body : String}
    (hd : HasPrefix sh.Ack sh.SignatureResponsePreamble = false)
    (hp : HasPrefix body sh.SignatureResponsePreamble = true) : body ≠ sh.Ack := by
  intro h
  rw [h, hd] at hp
  exact Bool.false_ne_true hp

/-! ## Lemmas on one loop iteration -/

section Handle

variable (sh : Shared) (w : World) (config : ConfigFile) (request : SignatureRequest)

theorem handleMessage_filtered (acked : Bool) (msg : Message) (h : Filtered config msg) :
    handleMessage sh w config request acked msg = .cont acked [] := by
  unfold handleMessage
  rcases h with h | h
  · simp [h]
  · by_cases ht : msg.contentType = "text" <;> simp [ht, h]

theorem handleMessage_response (acked : Bool) (body : String)
    (hne : body ≠ sh.Ack ∨ acked = true)
    (hp : HasPrefix body sh.SignatureResponsePreamble = true) :
    handleMessage sh w config request acked ⟨"text", config.BotName, body⟩ =
      match sh.ParseSignatureResponse body with
      | .error err => .ret (SignatureResponse.empty, some err) acked []
      | .ok resp =>
        if resp.UUID ≠ request.UUID then .cont acked [] else .ret (resp, none) acked [] := by
  unfold handleMessage
  have h1 : ¬ (body = sh.Ack ∧ acked = false) := by
    rintro ⟨h, h2⟩
    rcases hne with h3 | h3
    · exact h3 h
    · simp [h3] at h2
  simp [h1, hp]

theorem handleMessage_ack :
    handleMessage sh w config request false ⟨"text", config.BotName, sh.Ack⟩ =
      match w.marshal request with
      | .error err => .ret (SignatureResponse.empty, some err) true [.stopProber]
      | .ok m =>
        match w.send config.TeamName (sh.SignatureRequestPreamble ++ m) with
        | some err =>
          .ret (SignatureResponse.empty, some err) true
            [.stopProber, .sendMessage config.TeamName (sh.SignatureRequestPreamble ++ m)]
        | none =>
          .cont true
            [.stopProber, .sendMessage config.TeamName (sh.SignatureRequestPreamble ++ m)] := by
  unfold handleMessage
  simp

theorem handleMessage_ack_again (hd : HasPrefix sh.Ack sh.SignatureResponsePreamble = false) :
    handleMessage sh w config request true ⟨"text", config.BotName, sh.Ack⟩ = .cont true [] := by
  unfold handleMessage
  simp [hd]

/-- Shape of one iteration once the Ack has been accepted: nothing is sent and the flag
stays set. -/
theorem handleMessage_true (msg : Message) :
    (∃ r, handleMessage sh w config request true msg = .ret r true []) ∨
      handleMessage sh w config request true msg = .cont true [] := by
  unfold handleMessage
  by_cases h1 : msg.contentType = "text"
  swap
  · simp [h1]
  by_cases h2 : msg.senderUsername = config.BotName
  swap
  · simp [h1, h2]
  by_cases h3 : HasPrefix msg.body sh.SignatureResponsePreamble = true
  swap
  · simp [h1, h2, h3]
  cases h4 : sh.ParseSignatureResponse msg.body with
  | error err => simp [h1, h2, h3, h4]
  | ok resp =>
    by_cases h5 : resp.UUID = request.UUID <;> simp [h1, h2, h3, h4, h5]

/-- Shape of one iteration before any Ack: either nothing is sent and the flag stays
clear, or the message is the Ack from the bot and the Ack branch runs. -/
theorem handleMessage_false (msg : Message) :
    (∃ r, handleMessage sh w config request false msg = .ret r false []) ∨
      handleMessage sh w config request false msg = .cont false [] ∨
      msg = ⟨"text", config.BotName, sh.Ack⟩ := by
  unfold handleMessage
  by_cases h1 : msg.contentType = "text"
  swap
  · simp [h1]
  by_cases h2 : msg.senderUsername = config.BotName
  swap
  · simp [h1, h2]
  by_cases h0 : msg.body = sh.Ack
  · right; right
    cases msg
    simp_all
  by_cases h3 : HasPrefix msg.body sh.SignatureResponsePreamble = true
  swap
  · simp [h1, h2, h3, h0]
  cases h4 : sh.ParseSignatureResponse msg.body with
  | error err => simp [h1, h2, h3, h4, h0]
  | ok resp =>
    by_cases h5 : resp.UUID = request.UUID <;> simp [h1, h2, h3, h4, h5, h0]

/-- An iteration that returns an error returns the empty response with it. -/
theorem handleMessage_error_empty (acked a : Bool) (msg : Message) (r : SignatureResponse)
    (err : Error) (effects : List Effect)
    (h : handleMessage sh w config request acked msg = .ret (r, some err) a effects) :
    r = SignatureResponse.empty := by
  unfold handleMessage at h
  by_cases h1 : msg.contentType = "text"
  swap
  · simp [h1] at h
  by_cases h2 : msg.senderUsername = config.BotName
  swap
  · simp [h1, h2] at h
  by_cases h0 : msg.body = sh.Ack ∧ acked = false
  · simp only [h1, h2, h0] at h
    cases hm : w.marshal request with
    | error e => simp [hm] at h; exact h.1.1.symm
    | ok m =>
      cases hs : w.send config.TeamName (sh.SignatureRequestPreamble ++ m) with
      | none => simp [hm, hs] at h
      | some e => simp [hm, hs] at h; exact h.1.1.symm
  by_cases h3 : HasPrefix msg.body sh.SignatureResponsePreamble = true
  swap
  · simp [h1, h2, h3, h0] at h
  cases h4 : sh.ParseSignatureResponse msg.body with
  | error e => simp [h1, h2, h3, h4, h0] at h; exact h.1.1.symm
  | ok q =>
    by_cases h5 : q.UUID = request.UUID <;> simp [h1, h2, h3, h4, h5, h0] at h

end Handle

/-! ## Lemmas on the loop -/

section Loop

variable (sh : Shared) (w : World) (config : ConfigFile) (request : SignatureRequest)

theorem loop_nil (acked : Bool) :
    loop sh w config request acked [] = ⟨none, [], acked, 0⟩ := rfl

/-- One unfolding of the loop at an iteration that passes the check and reads `msg`. -/
theorem loop_cons_ok (acked : Bool) (ev : Inbound) (rest : List Inbound) (msg : Message)
    (ht : ev.elapsed ≤ deadline) (hr : ev.read = .ok msg) :
    loop sh w config request acked (ev :: rest) =
      match handleMessage sh w config request acked msg with
      | .ret r a effects => ⟨some r, effects, a, 1⟩
      | .cont a effects =>
        ⟨(loop sh w config request a rest).ret,
          effects ++ (loop sh w config request a rest).effects,
          (loop sh w config request a rest).hasBeenAcked,
          (loop sh w config request a rest).reads + 1⟩ := by
  have ht2 : ¬ ev.elapsed > deadline := Nat.not_lt.mpr ht
  simp only [loop, ht2, hr, if_false]

theorem loop_cons_timeout (acked : Bool) (ev : Inbound) (rest : List Inbound)
    (ht : deadline < ev.elapsed) :
    loop sh w config request acked (ev :: rest) =
      ⟨some (SignatureResponse.empty, some timeoutError), [], acked, 0⟩ := by
  simp only [loop, gt_iff_lt, ht, if_true]

theorem loop_cons_error (acked : Bool) (ev : Inbound) (rest : List Inbound) (err : Error)
    (ht : ev.elapsed ≤ deadline) (hr : ev.read = .error err) :
    loop sh w config request acked (ev :: rest) =
      ⟨some (SignatureResponse.empty, some ("failed to read message: " ++ err)), [],
        acked, 1⟩ := by
  have ht2 : ¬ ev.elapsed > deadline := Nat.not_lt.mpr ht
  simp only [loop, ht2, hr, if_false]

/-- Running the loop over `pre ++ post`: if it returns within `pre` that is the outcome,
otherwise it goes on over `post` from the state reached. -/
theorem loop_append (acked : Bool) (pre post : List Inbound) :
    loop sh w config request acked (pre ++ post) =
      match (loop sh w config request acked pre).ret with
      | some _ => loop sh w config request acked pre
      | none =>
        ⟨(loop sh w config request (loop sh w config request acked pre).hasBeenAcked post).ret,
          (loop sh w config request acked pre).effects ++
            (loop sh w config request (loop sh w config request acked pre).hasBeenAcked post).effects,
          (loop sh w config request (loop sh w config request acked pre).hasBeenAcked post).hasBeenAcked,
          (loop sh w config request acked pre).reads +
            (loop sh w config request (loop sh w config request acked pre).hasBeenAcked post).reads⟩ := by
  induction pre generalizing acked with
  | nil => simp [loop_nil]
  | cons ev rest ih =>
    by_cases ht : deadline < ev.elapsed
    · simp [loop_cons_timeout sh w config request acked ev _ ht]
    · have ht2 : ev.elapsed ≤ deadline := Nat.not_lt.mp ht
      cases hr : ev.read with
      | error err => simp [loop_cons_error sh w config request acked ev _ err ht2 hr]
      | ok msg =>
        rw [List.cons_append, loop_cons_ok sh w config request acked ev _ msg ht2 hr,
          loop_cons_ok sh w config request acked ev _ msg ht2 hr]
        cases hh : handleMessage sh w config request acked msg with
        | ret r a effects => simp
        | cont a effects =>
          simp only [ih a]
          cases hpre : (loop sh w config request a rest).ret with
          | some r => simp [hpre]
          | none => simp [hpre, Nat.add_assoc, Nat.add_comm, Nat.add_left_comm]

/-- While the call has not returned, every iteration offered has been read. -/
theorem loop_reads (acked : Bool) (evs : List Inbound)
    (h : (loop sh w config request acked evs).ret = none) :
    (loop sh w config request acked evs).reads = evs.length := by
  induction evs generalizing acked with
  | nil => rfl
  | cons ev rest ih =>
    by_cases ht : deadline < ev.elapsed
    · rw [loop_cons_timeout sh w config request acked ev _ ht] at h
      simp at h
    · have ht2 : ev.elapsed ≤ deadline := Nat.not_lt.mp ht
      cases hr : ev.read with
      | error err =>
        rw [loop_cons_error sh w config request acked ev _ err ht2 hr] at h
        simp at h
      | ok msg =>
        rw [loop_cons_ok sh w config request acked ev _ msg ht2 hr] at h ⊢
        cases hh : handleMessage sh w config request acked msg with
        | ret r a effects => rw [hh] at h; simp at h
        | cont a effects =>
          rw [hh] at h
          simp only at h ⊢
          rw [ih a h, List.length_cons]

/-- Once the Ack has been accepted the loop sends nothing and keeps the flag. -/
theorem loop_true (evs : List Inbound) :
    (loop sh w config request true evs).effects = [] ∧
      (loop sh w config request true evs).hasBeenAcked = true := by
  induction evs with
  | nil => exact ⟨rfl, rfl⟩
  | cons ev rest ih =>
    by_cases ht : deadline < ev.elapsed
    · rw [loop_cons_timeout sh w config request true ev _ ht]
      exact ⟨rfl, rfl⟩
    · have ht2 : ev.elapsed ≤ deadline := Nat.not_lt.mp ht
      cases hr : ev.read with
      | error err =>
        rw [loop_cons_error sh w config request true ev _ err ht2 hr]
        exact ⟨rfl, rfl⟩
      | ok msg =>
        rw [loop_cons_ok sh w config request true ev _ msg ht2 hr]
        rcases handleMessage_true sh w config request msg with ⟨r, h⟩ | h
        · rw [h]; exact ⟨rfl, rfl⟩
        · rw [h]; simpa using ih

/-- An iteration that passes the check and whose message is skipped. -/
theorem loop_single_skip (acked : Bool) (ev : Inbound) (msg : Message)
    (ht : ev.elapsed ≤ deadline) (hr : ev.read = .ok msg)
    (hs : handleMessage sh w config request acked msg = .cont acked []) :
    loop sh w config request acked [ev] = ⟨none, [], acked, 1⟩ := by
  rw [loop_cons_ok sh w config request acked ev _ msg ht hr, hs]
  simp [loop_nil]

/-- Appending a skipped iteration to a run that has not returned changes nothing but the
number of reads. -/
theorem loop_append_skip (acked : Bool) (pre : List Inbound) (ev : Inbound) (msg : Message)
    (hrun : (loop sh w config request acked pre).ret = none)
    (ht : ev.elapsed ≤ deadline) (hr : ev.read = .ok msg)
    (hs : handleMessage sh w config request (loop sh w config request acked pre).hasBeenAcked msg
      = .cont (loop sh w config request acked pre).hasBeenAcked []) :
    loop sh w config request acked (pre ++ [ev]) =
      ⟨none, (loop sh w config request acked pre).effects,
        (loop sh w config request acked pre).hasBeenAcked,
        (loop sh w config request acked pre).reads + 1⟩ := by
  rw [loop_append, hrun]
  simp only
  rw [loop_single_skip sh w config request _ ev msg ht hr hs]
  simp

/-- The run from the initial state: either no Ack has been accepted and nothing was done,
or the Ack branch ran exactly once, at an Ack from the bot before which nothing was done. -/
theorem loop_false_cases (evs : List Inbound) :
    ((loop sh w config request false evs).hasBeenAcked = false ∧
        (loop sh w config request false evs).effects = []) ∨
      ((loop sh w config request false evs).hasBeenAcked = true ∧
        (∃ pre ev post, evs = pre ++ ev :: post ∧ FromBot config ev sh.Ack ∧
          loop sh w config request false pre = ⟨none, [], false, pre.length⟩) ∧
        ((∃ err, w.marshal request = .error err ∧
            (loop sh w config request false evs).effects = [.stopProber] ∧
            (loop sh w config request false evs).ret = some (SignatureResponse.empty, some err)) ∨
          (∃ m, w.marshal request = .ok m ∧
            (loop sh w config request false evs).effects =
              [.stopProber, .sendMessage config.TeamName (sh.SignatureRequestPreamble ++ m)]))) := by
  induction evs with
  | nil => left; exact ⟨rfl, rfl⟩
  | cons ev rest ih =>
    by_cases ht : deadline < ev.elapsed
    · rw [loop_cons_timeout sh w config request false ev _ ht]
      left; exact ⟨rfl, rfl⟩
    · have ht2 : ev.elapsed ≤ deadline := Nat.not_lt.mp ht
      cases hr : ev.read with
      | error err =>
        rw [loop_cons_error sh w config request false ev _ err ht2 hr]
        left; exact ⟨rfl, rfl⟩
      | ok msg =>
        rw [loop_cons_ok sh w config request false ev _ msg ht2 hr]
        rcases handleMessage_false sh w config request msg with ⟨r, h⟩ | h | h
        · rw [h]; left; exact ⟨rfl, rfl⟩
        · rw [h]
          rcases ih with ⟨h1, h2⟩ | ⟨h1, ⟨pre, e, post, hsplit, hack, hpre⟩, h3⟩
          · left; simp [h1, h2]
          · right
            refine ⟨by simpa using h1, ⟨ev :: pre, e, post, by simp [hsplit], hack, ?_⟩, ?_⟩
            · rw [loop_cons_ok sh w config request false ev _ msg ht2 hr, h]
              simp [hpre]
            · simpa using h3
        · subst h
          rw [handleMessage_ack]
          have hfb : FromBot config ev sh.Ack := ⟨ht2, hr⟩
          have hsp : ∃ pre e post, ev :: rest = pre ++ e :: post ∧ FromBot config e sh.Ack ∧
              loop sh w config request false pre = ⟨none, [], false, pre.length⟩ :=
            ⟨[], ev, rest, rfl, hfb, rfl⟩
          cases hm : w.marshal request with
          | error err =>
            right
            exact ⟨rfl, hsp, Or.inl ⟨err, rfl, rfl, rfl⟩⟩
          | ok m =>
            simp only
            cases hs : w.send config.TeamName (sh.SignatureRequestPreamble ++ m) with
            | some err =>
              right
              exact ⟨rfl, hsp, Or.inr ⟨m, rfl, rfl⟩⟩
            | none =>
              right
              have ht := loop_true sh w config request rest
              refine ⟨by simpa using ht.2, hsp, Or.inr ⟨m, rfl, ?_⟩⟩
              simp [ht.1]

/-- While the loop has not returned, no response frame read so far carried the UUID of
the request. -/
theorem loop_running_no_match (hd : HasPrefix sh.Ack sh.SignatureResponsePreamble = false)
    (acked : Bool) (pre : List Inbound)
    (hrun : (loop sh w config request acked pre).ret = none) :
    ∀ x ∈ pre, ∀ r, IsResponse sh config x r → r.UUID ≠ request.UUID := by
  induction pre generalizing acked with
  | nil => intro x hx; simp at hx
  | cons ev rest ih =>
    by_cases ht : deadline < ev.elapsed
    · rw [loop_cons_timeout sh w config request acked ev _ ht] at hrun
      simp at hrun
    · have ht2 : ev.elapsed ≤ deadline := Nat.not_lt.mp ht
      cases hr : ev.read with
      | error err =>
        rw [loop_cons_error sh w config request acked ev _ err ht2 hr] at hrun
        simp at hrun
      | ok msg =>
        rw [loop_cons_ok sh w config request acked ev _ msg ht2 hr] at hrun
        intro x hx r hresp
        rcases List.mem_cons.mp hx with hx | hx
        · subst hx
          obtain ⟨body, hb, hp, hparse⟩ := hresp
          rw [hr] at hb
          injection hb with hb
          subst hb
          rw [handleMessage_response sh w config request acked body
            (Or.inl (ne_of_hasPrefix hd hp)) hp, hparse] at hrun
          by_cases hu : r.UUID = request.UUID
          · simp [hu] at hrun
          · exact hu
        · cases hh : handleMessage sh w config request acked msg with
          | ret r2 a effects => rw [hh] at hrun; simp at hrun
          | cont a effects =>
            rw [hh] at hrun
            exact ih a hrun x hx r hresp

/-- A return with a nil error happens at a response frame from the bot that carries the
UUID of the request, read before the loop had returned. -/
theorem loop_ok_split (acked : Bool) (evs : List Inbound) (resp : SignatureResponse)
    (h : (loop sh w config request acked evs).ret = some (resp, none)) :
    ∃ pre ev post, evs = pre ++ ev :: post ∧ ev.elapsed ≤ deadline ∧
      IsResponse sh config ev resp ∧ resp.UUID = request.UUID ∧
      (loop sh w config request acked pre).ret = none := by
  induction evs generalizing acked with
  | nil => simp [loop_nil] at h
  | cons ev rest ih =>
    by_cases ht : deadline < ev.elapsed
    · rw [loop_cons_timeout sh w config request acked ev _ ht] at h
      simp at h
    · have ht2 : ev.elapsed ≤ deadline := Nat.not_lt.mp ht
      cases hr : ev.read with
      | error err =>
        rw [loop_cons_error sh w config request acked ev _ err ht2 hr] at h
        simp at h
      | ok msg =>
        rw [loop_cons_ok sh w config request acked ev _ msg ht2 hr] at h
        cases hh : handleMessage sh w config request acked msg with
        | cont a effects =>
          rw [hh] at h
          obtain ⟨pre, e, post, hsplit, hte, hresp, hu, hrun⟩ := ih a h
          refine ⟨ev :: pre, e, post, by simp [hsplit], hte, hresp, hu, ?_⟩
          rw [loop_cons_ok sh w config request acked ev _ msg ht2 hr, hh]
          exact hrun
        | ret r a effects =>
          rw [hh] at h
          simp only [Option.some.injEq] at h
          subst h
          refine ⟨[], ev, rest, rfl, ht2, ?_, ?_, rfl⟩
          all_goals
            unfold handleMessage at hh
            by_cases h1 : msg.contentType = "text"
            swap
            · simp [h1] at hh
            by_cases h2 : msg.senderUsername = config.BotName
            swap
            · simp [h1, h2] at hh
            by_cases h0 : msg.body = sh.Ack ∧ acked = false
            · simp only [h1, h2, h0] at hh
              cases hm : w.marshal request with
              | error err => simp [hm] at hh
              | ok m =>
                cases hs : w.send config.TeamName (sh.SignatureRequestPreamble ++ m) <;>
                  simp [hm, hs] at hh
            by_cases h3 : HasPrefix msg.body sh.SignatureResponsePreamble = true
            swap
            · simp [h1, h2, h3, h0] at hh
            cases h4 : sh.ParseSignatureResponse msg.body with
            | error err => simp [h1, h2, h3, h4, h0] at hh
            | ok r =>
              by_cases h5 : r.UUID = request.UUID
              swap
              · simp [h1, h2, h3, h4, h5, h0] at hh
              simp [h1, h2, h3, h4, h5, h0] at hh
              first
                | exact ⟨msg.body, by rw [hr]; cases msg; simp_all, h3, by rw [h4, hh.1]⟩
                | (rw [← hh.1]; exact h5)

/-- If no Ack from the bot is read in an iteration that passes the check, the flag stays
clear and nothing is done. -/
theorem loop_no_ack (evs : List Inbound)
    (hno : ∀ ev ∈ evs, ev.elapsed ≤ deadline → ¬ IsAck sh config ev) :
    (loop sh w config request false evs).hasBeenAcked = false ∧
      (loop sh w config request false evs).effects = [] := by
  rcases loop_false_cases sh w config request evs with
    h | ⟨_, ⟨pre, ev, post, hsplit, hack, _⟩, _⟩
  · exact h
  · exact absurd hack.2 (hno ev (by simp [hsplit]) hack.1)

theorem handleMessage_dropped (acked : Bool) (msg : Message)
    (hna : msg = ⟨"text", config.BotName, sh.Ack⟩ → acked = true)
    (h : Filtered config msg ∨ HasPrefix msg.body sh.SignatureResponsePreamble = false ∨
      ∃ r, sh.ParseSignatureResponse msg.body = .ok r ∧ r.UUID ≠ request.UUID) :
    handleMessage sh w config request acked msg = .cont acked [] := by
  by_cases hf : Filtered config msg
  · exact handleMessage_filtered sh w config request acked msg hf
  have h1 : msg.contentType = "text" := by
    by_contra hc; exact hf (Or.inl hc)
  have h2 : msg.senderUsername = config.BotName := by
    by_contra hc; exact hf (Or.inr hc)
  have h0 : ¬ (msg.body = sh.Ack ∧ acked = false) := by
    rintro ⟨hb, ha⟩
    have := hna (by cases msg; simp_all)
    simp [this] at ha
  unfold handleMessage
  rcases h with h | h | ⟨r, hp, hu⟩
  · exact absurd h hf
  · simp [h1, h2, h0, h]
  · by_cases h3 : HasPrefix msg.body sh.SignatureResponsePreamble = true
    · simp [h1, h2, h0, h3, hp, hu]
    · simp [h1, h2, h0, h3]

/-- A run over dropped iterations only, none of them an Ack from the bot. -/
theorem loop_all_dropped (pre : List Inbound)
    (hno : ∀ ev ∈ pre, ev.elapsed ≤ deadline → ¬ IsAck sh config ev)
    (hdrop : ∀ x ∈ pre, Dropped sh config request x) :
    loop sh w config request false pre = ⟨none, [], false, pre.length⟩ := by
  induction pre with
  | nil => rfl
  | cons ev rest ih =>
    obtain ⟨ht, msg, hr, hcase⟩ := hdrop ev (by simp)
    have hna : msg = ⟨"text", config.BotName, sh.Ack⟩ → false = true := by
      intro hm
      exact absurd (by rw [IsAck, hr, hm]) (hno ev (by simp) ht)
    rw [loop_cons_ok sh w config request false ev _ msg ht hr,
      handleMessage_dropped sh w config request false msg hna hcase]
    simp only
    rw [ih (fun e he => hno e (by simp [he])) (fun x hx => hdrop x (by simp [hx]))]
    simp

/-- Processing an Ack from the bot sets the flag and stops the prober, if that had not
happened before. -/
theorem loop_ack_sets (pre : List Inbound) (ev : Inbound) (post : List Inbound)
    (hrun : (loop sh w config request false pre).ret = none)
    (hev : FromBot config ev sh.Ack) :
    (loop sh w config request false (pre ++ ev :: post)).hasBeenAcked = true ∧
      Effect.stopProber ∈ (loop sh w config request false (pre ++ ev :: post)).effects := by
  rw [loop_append, hrun]
  simp only
  cases ha : (loop sh w config request false pre).hasBeenAcked with
  | true =>
    have ht := loop_true sh w config request (ev :: post)
    refine ⟨ht.2, ?_⟩
    rcases loop_false_cases sh w config request pre with ⟨h1, _⟩ | ⟨_, _, h3⟩
    · rw [ha] at h1; cases h1
    · rcases h3 with ⟨err, _, heff, _⟩ | ⟨m, _, heff⟩ <;> simp [heff]
  | false =>
    rw [loop_cons_ok sh w config request false ev _ _ hev.1 hev.2, handleMessage_ack]
    cases hm : w.marshal request with
    | error err => simp
    | ok m =>
      simp only
      cases hs : w.send config.TeamName (sh.SignatureRequestPreamble ++ m) with
      | some err => simp
      | none =>
        have ht := loop_true sh w config request post
        simp [ht.2]

/-- The loop does not look at the body of a message that a filter removes. -/
theorem loop_congr (acked : Bool) (in1 in2 : List Inbound)
    (h : List.Forall₂ (SameUpToFiltered config) in1 in2) :
    loop sh w config request acked in1 = loop sh w config request acked in2 := by
  induction h generalizing acked with
  | nil => rfl
  | @cons e1 e2 r1 r2 he _ ih =>
    obtain ⟨hel, hread⟩ := he
    by_cases ht : deadline < e1.elapsed
    · rw [loop_cons_timeout sh w config request acked e1 _ ht,
        loop_cons_timeout sh w config request acked e2 _ (hel ▸ ht)]
    · have ht1 : e1.elapsed ≤ deadline := Nat.not_lt.mp ht
      have ht2 : e2.elapsed ≤ deadline := hel ▸ ht1
      rcases hread with hread | ⟨m1, m2, hr1, hr2, hc, hsn, hf⟩
      · cases hr : e1.read with
        | error err =>
          rw [loop_cons_error sh w config request acked e1 _ err ht1 hr,
            loop_cons_error sh w config request acked e2 _ err ht2 (hread ▸ hr)]
        | ok msg =>
          rw [loop_cons_ok sh w config request acked e1 _ msg ht1 hr,
            loop_cons_ok sh w config request acked e2 _ msg ht2 (hread ▸ hr)]
          simp only [ih]
      · have hf2 : Filtered config m2 := by
          unfold Filtered at hf ⊢
          rw [← hc, ← hsn]
          exact hf
        rw [loop_cons_ok sh w config request acked e1 _ m1 ht1 hr1,
          loop_cons_ok sh w config request acked e2 _ m2 ht2 hr2,
          handleMessage_filtered sh w config request acked m1 hf,
          handleMessage_filtered sh w config request acked m2 hf2]
        simp only [ih]

/-- A return of the loop with an error carries the empty response. -/
theorem loop_error_empty (acked : Bool) (evs : List Inbound) (r : SignatureResponse)
    (err : Error) (h : (loop sh w config request acked evs).ret = some (r, some err)) :
    r = SignatureResponse.empty := by
  induction evs generalizing acked with
  | nil => simp [loop_nil] at h
  | cons ev rest ih =>
    by_cases ht : deadline < ev.elapsed
    · rw [loop_cons_timeout sh w config request acked ev _ ht] at h
      simp at h
      exact h.1.symm
    · have ht2 : ev.elapsed ≤ deadline := Nat.not_lt.mp ht
      cases hr : ev.read with
      | error e =>
        rw [loop_cons_error sh w config request acked ev _ e ht2 hr] at h
        simp at h
        exact h.1.symm
      | ok msg =>
        rw [loop_cons_ok sh w config request acked ev _ msg ht2 hr] at h
        cases hh : handleMessage sh w config request acked msg with
        | cont a effects =>
          rw [hh] at h
          exact ih a h
        | ret q a effects =>
          rw [hh] at h
          simp only [Option.some.injEq] at h
          subst h
          exact handleMessage_error_empty sh w config request acked a msg r err effects hh

end Loop

/-! ## Lemmas on the prober -/

section Prober

variable (sh : Shared) (config : ConfigFile)

theorem numProbes_proberLoop_false (rest : List Bool) (ns : Nat) :
    numProbes (proberLoop sh config (false :: rest) ns) =
      numProbes (proberLoop sh config rest (ns + 1)) + 1 := by
  simp [proberLoop, numProbes]

/-- The goroutine exits only when the receive from `terminateRoutineCh` is ready. -/
theorem proberLoop_exit (stops : List Bool) (ns : Nat)
    (h : ProberEvent.exit ∈ proberLoop sh config stops ns) : true ∈ stops := by
  induction stops generalizing ns with
  | nil => simp [proberLoop] at h
  | cons b rest ih =>
    cases b with
    | true => simp
    | false =>
      simp only [proberLoop, List.mem_cons, reduceCtorEq, false_or] at h
      simp [ih _ h]

/-- The probe with index `n` is at position `2 * n`, the sleep after it at `2 * n + 1`. -/
theorem proberLoop_probe (stops : List Bool) (ns n : Nat)
    (h : n < numProbes (proberLoop sh config stops ns)) :
    (proberLoop sh config stops ns)[2 * n]? = some (.probe config.TeamName sh.AckRequest) ∧
      (proberLoop sh config stops ns)[2 * n + 1]? = some (.sleep (100 + 10 * (ns + n + 1))) := by
  induction stops generalizing ns n with
  | nil => simp [proberLoop, numProbes] at h
  | cons b rest ih =>
    cases b with
    | true => simp [proberLoop, numProbes] at h
    | false =>
      rw [numProbes_proberLoop_false] at h
      cases n with
      | zero => simp [proberLoop]
      | succ m =>
        have hm := ih (ns + 1) m (by omega)
        have e1 : 2 * (m + 1) = 2 * m + 1 + 1 := by omega
        have e2 : ns + (m + 1) + 1 = ns + 1 + m + 1 := by omega
        rw [e1, e2]
        simp only [proberLoop, List.getElem?_cons_succ]
        exact hm

/-- Probes sit at even positions only. -/
theorem proberLoop_probe_pos (stops : List Bool) (ns i : Nat) (a b : String)
    (h : (proberLoop sh config stops ns)[i]? = some (.probe a b)) :
    i % 2 = 0 ∧ i / 2 < numProbes (proberLoop sh config stops ns) := by
  induction stops generalizing ns i with
  | nil => simp [proberLoop] at h
  | cons c rest ih =>
    cases c with
    | true =>
      cases i with
      | zero => simp [proberLoop] at h
      | succ j => simp [proberLoop] at h
    | false =>
      rw [numProbes_proberLoop_false]
      match i with
      | 0 => simp
      | 1 => simp [proberLoop] at h
      | j + 2 =>
        simp only [proberLoop, List.getElem?_cons_succ] at h
        have := ih (ns + 1) j h
        omega

/-- Sleeps sit at odd positions, and their length is determined by the position. -/
theorem proberLoop_sleep_pos (stops : List Bool) (ns i d : Nat)
    (h : (proberLoop sh config stops ns)[i]? = some (.sleep d)) :
    i % 2 = 1 ∧ d = 100 + 10 * (ns + i / 2 + 1) := by
  induction stops generalizing ns i with
  | nil => simp [proberLoop] at h
  | cons c rest ih =>
    cases c with
    | true =>
      cases i with
      | zero => simp [proberLoop] at h
      | succ j => simp [proberLoop] at h
    | false =>
      match i with
      | 0 => simp [proberLoop] at h
      | 1 =>
        simp only [proberLoop, List.getElem?_cons_succ, List.getElem?_cons_zero,
          Option.some.injEq, ProberEvent.sleep.injEq] at h
        omega
      | j + 2 =>
        simp only [proberLoop, List.getElem?_cons_succ] at h
        have := ih (ns + 1) j h
        omega

/-- The exit, if any, is the last event. -/
theorem proberLoop_exit_last (stops : List Bool) (ns i : Nat)
    (h : (proberLoop sh config stops ns)[i]? = some .exit) :
    (proberLoop sh config stops ns).length = i + 1 := by
  induction stops generalizing ns i with
  | nil => simp [proberLoop] at h
  | cons c rest ih =>
    cases c with
    | true =>
      cases i with
      | zero => simp [proberLoop]
      | succ j => simp [proberLoop] at h
    | false =>
      match i with
      | 0 => simp [proberLoop] at h
      | 1 => simp [proberLoop] at h
      | j + 2 =>
        simp only [proberLoop, List.getElem?_cons_succ] at h
        have := ih (ns + 1) j h
        simp only [proberLoop, List.length_cons]
        omega

/-- While the receive is never ready, every iteration sends one probe. -/
theorem proberLoop_all_false (pre : List Bool) (ns : Nat) (h : ∀ b ∈ pre, b = false) :
    numProbes (proberLoop sh config pre ns) = pre.length := by
  induction pre generalizing ns with
  | nil => simp [proberLoop, numProbes]
  | cons c rest ih =>
    have hc : c = false := h c (by simp)
    subst hc
    rw [numProbes_proberLoop_false, ih (ns + 1) (fun b hb => h b (by simp [hb])),
      List.length_cons]

/-- At the first iteration at which the receive is ready the goroutine exits: the trace
is that of the iterations before it followed by the exit, whatever comes after. -/
theorem proberLoop_append_true (pre post : List Bool) (ns : Nat) (h : ∀ b ∈ pre, b = false) :
    proberLoop sh config (pre ++ true :: post) ns = proberLoop sh config pre ns ++ [.exit] := by
  induction pre generalizing ns with
  | nil => simp [proberLoop]
  | cons c rest ih =>
    have hc : c = false := h c (by simp)
    subst hc
    have hrest := ih (ns + 1) (fun b hb => h b (by simp [hb]))
    rw [List.cons_append]
    simp only [proberLoop, List.cons_append]
    rw [hrest]

theorem numProbes_append_exit (t : List ProberEvent) :
    numProbes (t ++ [.exit]) = numProbes t := by
  simp [numProbes]

end Prober

/-! ## Lemmas on `GetSignedKey` -/

section Top

variable (sh : Shared) (w : World) (config : ConfigFile) (request : SignatureRequest)

theorem getSignedKey_eq (inbound : List Inbound) (hs : w.start = none) (hl : w.listen = none) :
    GetSignedKey sh w config request inbound =
      ⟨(loop sh w config request false inbound).ret,
        .startProber :: (loop sh w config request false inbound).effects,
        (loop sh w config request false inbound).hasBeenAcked,
        (loop sh w config request false inbound).reads⟩ := by
  simp [GetSignedKey, hs, hl]

/-- Unless both `kbchat.Start` and the subscription succeed, the call returns an error
at once, with no effect. -/
theorem getSignedKey_not_started (inbound : List Inbound)
    (h : ¬ (w.start = none ∧ w.listen = none)) :
    ∃ err, GetSignedKey sh w config request inbound =
      ⟨some (SignatureResponse.empty, some err), [], false, 0⟩ := by
  unfold GetSignedKey
  cases hs : w.start with
  | some e => exact ⟨_, rfl⟩
  | none =>
    cases hl : w.listen with
    | some e => exact ⟨_, rfl⟩
    | none => exact absurd ⟨hs, hl⟩ h

theorem started_of_ret_none (inbound : List Inbound)
    (h : (GetSignedKey sh w config request inbound).ret = none) :
    w.start = none ∧ w.listen = none := by
  by_contra hn
  obtain ⟨err, he⟩ := getSignedKey_not_started sh w config request inbound hn
  rw [he] at h
  simp at h

theorem started_of_ok (inbound : List Inbound) (resp : SignatureResponse)
    (h : (GetSignedKey sh w config request inbound).ret = some (resp, none)) :
    w.start = none ∧ w.listen = none := by
  by_contra hn
  obtain ⟨err, he⟩ := getSignedKey_not_started sh w config request inbound hn
  rw [he] at h
  simp at h

theorem started_of_effect (inbound : List Inbound) (e : Effect)
    (h : e ∈ (GetSignedKey sh w config request inbound).effects) :
    w.start = none ∧ w.listen = none := by
  by_contra hn
  obtain ⟨err, he⟩ := getSignedKey_not_started sh w config request inbound hn
  rw [he] at h
  simp at h

end Top

/-! ## The handshake: success, correlation, single request -/

/-- C1: when the stream delivers, as text messages from `config.BotName` read within the
deadline, first the Ack sentinel and then a frame made of the Response preamble and a
payload that parses to a response with the UUID of the request, and marshalling the
request and sending the Request frame succeed, `GetSignedKey` returns that response with
a nil error (having stopped the prober and sent the Request frame once, after two reads). -/
theorem getSignedKey_ack_then_response (sh : Shared) (w : World) (config : ConfigFile)
    (request : SignatureRequest) (a r : Inbound) (rest : List Inbound)
    (payload marshaled : String) (resp : SignatureResponse)
    (hstart : w.start = none) (hlisten : w.listen = none)
    (ha : FromBot config a sh.Ack)
    (hr : FromBot config r (sh.SignatureResponsePreamble ++ payload))
    (hparse : sh.ParseSignatureResponse (sh.SignatureResponsePreamble ++ payload) = .ok resp)
    (huuid : resp.UUID = request.UUID)
    (hmarshal : w.marshal request = .ok marshaled)
    (hsend : w.send config.TeamName (sh.SignatureRequestPreamble ++ marshaled) = none) :
    GetSignedKey sh w config request (a :: r :: rest) =
      ⟨some (resp, none),
        [.startProber, .stopProber,
          .sendMessage config.TeamName (sh.SignatureRequestPreamble ++ marshaled)],
        true, 2⟩ := by
  rw [getSignedKey_eq sh w config request _ hstart hlisten,
    loop_cons_ok sh w config request false a _ _ ha.1 ha.2, handleMessage_ack, hmarshal]
  simp only [hsend]
  rw [loop_cons_ok sh w config request true r _ _ hr.1 hr.2,
    handleMessage_response sh w config request true _ (Or.inr rfl) (hasPrefix_append _ _),
    hparse]
  simp [huuid]

theorem getSignedKey_ack_then_response_witness :
    GetSignedKey sampleShared sampleWorld sampleConfig sampleRequest
        [⟨0, 1, .ok (botText "Ack")⟩, ⟨2, 3, .ok (botText "Signature_Response:u1")⟩,
          ⟨4, 5, .error "EOF"⟩] =
      ⟨some (⟨"u1", "cert1"⟩, none),
        [.startProber, .stopProber, .sendMessage "team" "Signature_Request:u1"], true, 2⟩ :=
  getSignedKey_ack_then_response sampleShared sampleWorld sampleConfig sampleRequest
    ⟨0, 1, .ok (botText "Ack")⟩ ⟨2, 3, .ok (botText "Signature_Response:u1")⟩
    [⟨4, 5, .error "EOF"⟩] "u1" "u1" ⟨"u1", "cert1"⟩ rfl rfl
    ⟨by decide, rfl⟩ ⟨by decide, rfl⟩ rfl rfl rfl rfl

/-- C2: if `GetSignedKey` returns a response with a nil error, the response is the parse
of the first text message from `config.BotName` in the stream that starts with the
Response preamble and parses to the UUID of the request; every well-formed Response frame
from the bot before it carries another UUID and is skipped: after it the call has not
returned, the effects and the ack flag are as before it, and one more read was made.
(The Ack sentinel is assumed not to start with the Response preamble.) -/
theorem getSignedKey_first_matching_response (sh : Shared) (w : World) (config : ConfigFile)
    (request : SignatureRequest) (inbound : List Inbound) (resp : SignatureResponse)
    (hd : HasPrefix sh.Ack sh.SignatureResponsePreamble = false)
    (h : (GetSignedKey sh w config request inbound).ret = some (resp, none)) :
    ∃ pre ev post, inbound = pre ++ ev :: post ∧ ev.elapsed ≤ deadline ∧
      IsResponse sh config ev resp ∧ resp.UUID = request.UUID ∧
      (∀ x ∈ pre, ∀ r, IsResponse sh config x r → r.UUID ≠ request.UUID) ∧
      (∀ a x b r, pre = a ++ x :: b → IsResponse sh config x r →
        GetSignedKey sh w config request (a ++ [x]) =
          ⟨none, (GetSignedKey sh w config request a).effects,
            (GetSignedKey sh w config request a).hasBeenAcked,
            (GetSignedKey sh w config request a).reads + 1⟩) := by
  obtain ⟨hs, hl⟩ := started_of_ok sh w config request inbound resp h
  rw [getSignedKey_eq sh w config request _ hs hl] at h
  obtain ⟨pre, ev, post, hsplit, hte, hresp, hu, hrun⟩ :=
    loop_ok_split sh w config request false inbound resp h
  have hfirst := loop_running_no_match sh w config request hd false pre hrun
  refine ⟨pre, ev, post, hsplit, hte, hresp, hu, hfirst, ?_⟩
  intro a x b r hpre hx
  have hne : r.UUID ≠ request.UUID := hfirst x (by simp [hpre]) r hx
  have hrun2 : (loop sh w config request false (a ++ [x] ++ b)).ret = none := by
    rw [List.append_assoc]; simpa [hpre] using hrun
  have hrunax : (loop sh w config request false (a ++ [x])).ret = none := by
    rw [loop_append] at hrun2
    cases hq : (loop sh w config request false (a ++ [x])).ret with
    | none => rfl
    | some q => rw [hq] at hrun2; simp only at hrun2; rw [hq] at hrun2; simp at hrun2
  have hruna : (loop sh w config request false a).ret = none := by
    rw [loop_append] at hrunax
    cases hq : (loop sh w config request false a).ret with
    | none => rfl
    | some q => rw [hq] at hrunax; simp only at hrunax; rw [hq] at hrunax; simp at hrunax
  have htx : x.elapsed ≤ deadline := by
    by_contra hc
    rw [loop_append, hruna] at hrunax
    simp only at hrunax
    rw [loop_cons_timeout sh w config request _ x _ (Nat.not_le.mp hc)] at hrunax
    simp at hrunax
  obtain ⟨body, hb, hp, hparse⟩ := hx
  have hstep : handleMessage sh w config request
      (loop sh w config request false a).hasBeenAcked ⟨"text", config.BotName, body⟩ =
      .cont (loop sh w config request false a).hasBeenAcked [] := by
    rw [handleMessage_response sh w config request _ body (Or.inl (ne_of_hasPrefix hd hp)) hp,
      hparse]
    simp [hne]
  rw [getSignedKey_eq sh w config request _ hs hl, getSignedKey_eq sh w config request _ hs hl,
    loop_append_skip sh w config request false a x _ hruna htx hb hstep]

theorem getSignedKey_first_matching_response_witness :
    ∃ pre ev post,
      [(⟨0, 1, .ok (botText "Signature_Response:u2")⟩ : Inbound),
        ⟨2, 3, .ok (botText "Signature_Response:u1")⟩] = pre ++ ev :: post ∧
      ev.elapsed ≤ deadline ∧
      IsResponse sampleShared sampleConfig ev ⟨"u1", "cert1"⟩ ∧
      (⟨"u1", "cert1"⟩ : SignatureResponse).UUID = sampleRequest.UUID ∧
      (∀ x ∈ pre, ∀ r, IsResponse sampleShared sampleConfig x r → r.UUID ≠ sampleRequest.UUID) ∧
      (∀ a x b r, pre = a ++ x :: b → IsResponse sampleShared sampleConfig x r →
        GetSignedKey sampleShared sampleWorld sampleConfig sampleRequest (a ++ [x]) =
          ⟨none, (GetSignedKey sampleShared sampleWorld sampleConfig sampleRequest a).effects,
            (GetSignedKey sampleShared sampleWorld sampleConfig sampleRequest a).hasBeenAcked,
            (GetSignedKey sampleShared sampleWorld sampleConfig sampleRequest a).reads + 1⟩) :=
  getSignedKey_first_matching_response sampleShared sampleWorld sampleConfig sampleRequest
    [⟨0, 1, .ok (botText "Signature_Response:u2")⟩,
      ⟨2, 3, .ok (botText "Signature_Response:u1")⟩]
    ⟨"u1", "cert1"⟩ (by decide) (by decide)

/-- C3: during one invocation the Request frame is sent at most once; a send of it
happens only when an Ack sentinel from `config.BotName` is processed, before which nothing
was sent and after which the effects are exactly: start the prober, stop the prober, send
the Request frame; an Ack processed once the ack flag is set is a no-op (nothing is sent,
the flag and the effects stay as they are, the call does not return); and when an Ack has
been accepted and the request marshals, the Request frame is sent exactly once. (The Ack
sentinel is assumed not to start with the Response preamble.) -/
theorem getSignedKey_request_sent_once (sh : Shared) (w : World) (config : ConfigFile)
    (request : SignatureRequest) (inbound : List Inbound)
    (hd : HasPrefix sh.Ack sh.SignatureResponsePreamble = false) :
    requestSends (GetSignedKey sh w config request inbound).effects ≤ 1 ∧
    (∀ team body,
      Effect.sendMessage team body ∈ (GetSignedKey sh w config request inbound).effects →
      ∃ pre ev post m, inbound = pre ++ ev :: post ∧ FromBot config ev sh.Ack ∧
        w.marshal request = .ok m ∧ team = config.TeamName ∧
        body = sh.SignatureRequestPreamble ++ m ∧
        GetSignedKey sh w config request pre = ⟨none, [.startProber], false, pre.length⟩ ∧
        (GetSignedKey sh w config request inbound).effects =
          [.startProber, .stopProber, .sendMessage team body]) ∧
    (∀ pre ev, (GetSignedKey sh w config request pre).ret = none →
      (GetSignedKey sh w config request pre).hasBeenAcked = true →
      FromBot config ev sh.Ack →
      GetSignedKey sh w config request (pre ++ [ev]) =
        ⟨none, (GetSignedKey sh w config request pre).effects, true,
          (GetSignedKey sh w config request pre).reads + 1⟩) ∧
    ((GetSignedKey sh w config request inbound).hasBeenAcked = true →
      ∀ m, w.marshal request = .ok m →
        requestSends (GetSignedKey sh w config request inbound).effects = 1) := by
  have hthird : ∀ pre ev, (GetSignedKey sh w config request pre).ret = none →
      (GetSignedKey sh w config request pre).hasBeenAcked = true →
      FromBot config ev sh.Ack →
      GetSignedKey sh w config request (pre ++ [ev]) =
        ⟨none, (GetSignedKey sh w config request pre).effects, true,
          (GetSignedKey sh w config request pre).reads + 1⟩ := by
    intro pre ev hrun hacked hev
    obtain ⟨hs, hl⟩ := started_of_ret_none sh w config request pre hrun
    rw [getSignedKey_eq sh w config request _ hs hl] at hrun hacked ⊢
    simp only at hrun hacked
    rw [getSignedKey_eq sh w config request _ hs hl,
      loop_append_skip sh w config request false pre ev _ hrun hev.1 hev.2
        (by rw [hacked]; exact handleMessage_ack_again sh w config request hd), hacked]
  by_cases hst : w.start = none ∧ w.listen = none
  swap
  · obtain ⟨err, he⟩ := getSignedKey_not_started sh w config request inbound hst
    rw [he]
    refine ⟨by simp [requestSends], by simp, hthird, by simp⟩
  obtain ⟨hs, hl⟩ := hst
  rw [getSignedKey_eq sh w config request inbound hs hl]
  simp only
  rcases loop_false_cases sh w config request inbound with
    ⟨h1, h2⟩ | ⟨h1, ⟨pre, ev, post, hsplit, hack, hpre⟩, h3⟩
  · rw [h1, h2]
    refine ⟨by simp [requestSends], by simp, hthird, by simp⟩
  · rcases h3 with ⟨err, hm, heff, _⟩ | ⟨m, hm, heff⟩
    · rw [heff]
      refine ⟨by simp [requestSends], by simp, hthird, ?_⟩
      intro _ m hm2
      rw [hm] at hm2
      cases hm2
    · rw [heff]
      refine ⟨by simp [requestSends], ?_, hthird, ?_⟩
      · intro team body hmem
        simp only [List.mem_cons, List.mem_singleton, Effect.sendMessage.injEq, reduceCtorEq,
          false_or, List.mem_nil_iff, or_false] at hmem
        obtain ⟨ht, hb⟩ := hmem
        refine ⟨pre, ev, post, m, hsplit, hack, hm, ht, hb, ?_, by rw [ht, hb]⟩
        rw [getSignedKey_eq sh w config request pre hs hl, hpre]
      · intro _ m2 _
        simp [requestSends]

theorem getSignedKey_request_sent_once_witness :
    requestSends (GetSignedKey sampleShared sampleWorld sampleConfig sampleRequest
      [⟨0, 1, .ok (botText "Ack")⟩, ⟨2, 3, .ok (botText "Ack")⟩]).effects = 1 :=
  (getSignedKey_request_sent_once sampleShared sampleWorld sampleConfig sampleRequest
    [⟨0, 1, .ok (botText "Ack")⟩, ⟨2, 3, .ok (botText "Ack")⟩] (by decide)).2.2.2
    (by decide) "u1" rfl

/-! ## The deadline -/

/-- C4, as stated, fails: in the first run no Ack is delivered within 5 s of the start (the
only Ack is delivered after 6 s, to a read begun at time 0), the stream is chronological,
and the Request frame is sent all the same; in the second run no Ack is delivered at all
and the call returns a read error, not the timeout error. -/
theorem getSignedKey_late_ack_counterexample :
    (chronological 0 [⟨0, 6000000000, .ok (botText "Ack")⟩,
        ⟨6000000001, 6000000002, .ok (botText "Ack")⟩] = true ∧
      (∀ ev ∈ [(⟨0, 6000000000, .ok (botText "Ack")⟩ : Inbound),
          ⟨6000000001, 6000000002, .ok (botText "Ack")⟩],
        IsAck sampleShared sampleConfig ev → deadline < ev.deliveredAt) ∧
      GetSignedKey sampleShared sampleWorld sampleConfig sampleRequest
          [⟨0, 6000000000, .ok (botText "Ack")⟩,
            ⟨6000000001, 6000000002, .ok (botText "Ack")⟩] =
        ⟨some (SignatureResponse.empty, some timeoutError),
          [.startProber, .stopProber, .sendMessage "team" "Signature_Request:u1"], true, 1⟩) ∧
    (chronological 0 [⟨0, 1, .error "EOF"⟩] = true ∧
      (∀ ev ∈ [(⟨0, 1, .error "EOF"⟩ : Inbound)],
        IsAck sampleShared sampleConfig ev → deadline < ev.deliveredAt) ∧
      GetSignedKey sampleShared sampleWorld sampleConfig sampleRequest [⟨0, 1, .error "EOF"⟩] =
        ⟨some (SignatureResponse.empty, some "failed to read message: EOF"),
          [.startProber], false, 1⟩) := by
  refine ⟨⟨by decide, ?_, by decide⟩, ⟨by decide, ?_, by decide⟩⟩
  · intro ev hev _
    simp only [List.mem_cons, List.mem_singleton, List.mem_nil_iff, or_false] at hev
    rcases hev with h | h <;> subst h <;> decide
  · intro ev hev hack
    simp only [List.mem_singleton] at hev
    subst hev
    simp [IsAck] at hack

/-- C4, amended: in every run in which no Ack sentinel from `config.BotName` is read in an
iteration that passes the deadline check at its top, the Request frame is never sent, the
prober is never stopped and the ack flag stays clear; and when moreover the chat was
started and subscribed to, and every iteration before the first one whose check finds
more than 5 s elapsed reads a message that the loop drops, `GetSignedKey` returns the
timeout error with the empty response at that check, without a further read. -/
theorem getSignedKey_timeout_without_ack (sh : Shared) (w : World) (config : ConfigFile)
    (request : SignatureRequest) (inbound : List Inbound)
    (hno : ∀ ev ∈ inbound, ev.elapsed ≤ deadline → ¬ IsAck sh config ev) :
    requestSends (GetSignedKey sh w config request inbound).effects = 0 ∧
    Effect.stopProber ∉ (GetSignedKey sh w config request inbound).effects ∧
    (GetSignedKey sh w config request inbound).hasBeenAcked = false ∧
    (∀ pre ev post, inbound = pre ++ ev :: post → w.start = none → w.listen = none →
      (∀ x ∈ pre, Dropped sh config request x) → deadline < ev.elapsed →
      GetSignedKey sh w config request inbound =
        ⟨some (SignatureResponse.empty, some timeoutError), [.startProber], false,
          pre.length⟩) := by
  have hfirst : requestSends (GetSignedKey sh w config request inbound).effects = 0 ∧
      Effect.stopProber ∉ (GetSignedKey sh w config request inbound).effects ∧
      (GetSignedKey sh w config request inbound).hasBeenAcked = false := by
    by_cases hst : w.start = none ∧ w.listen = none
    · obtain ⟨h1, h2⟩ := loop_no_ack sh w config request inbound hno
      rw [getSignedKey_eq sh w config request inbound hst.1 hst.2]
      simp [h1, h2, requestSends]
    · obtain ⟨err, he⟩ := getSignedKey_not_started sh w config request inbound hst
      rw [he]
      simp [requestSends]
  refine ⟨hfirst.1, hfirst.2.1, hfirst.2.2, ?_⟩
  intro pre ev post hsplit hs hl hdrop ht
  have hpre := loop_all_dropped sh w config request pre
    (fun e he => hno e (by simp [hsplit, he])) hdrop
  rw [getSignedKey_eq sh w config request inbound hs hl, hsplit, loop_append, hpre]
  simp only
  rw [loop_cons_timeout sh w config request false ev post ht]
  simp

theorem getSignedKey_timeout_without_ack_witness :
    GetSignedKey sampleShared sampleWorld sampleConfig sampleRequest
        [⟨0, 1, .ok ⟨"text", "mallory", "Ack"⟩⟩, ⟨2, 3, .ok (botText "Signature_Response:u2")⟩,
          ⟨5000000001, 5000000002, .ok (botText "Ack")⟩] =
      ⟨some (SignatureResponse.empty, some timeoutError), [.startProber], false, 2⟩ :=
  (getSignedKey_timeout_without_ack sampleShared sampleWorld sampleConfig sampleRequest
    [⟨0, 1, .ok ⟨"text", "mallory", "Ack"⟩⟩, ⟨2, 3, .ok (botText "Signature_Response:u2")⟩,
      ⟨5000000001, 5000000002, .ok (botText "Ack")⟩]
    (by
      intro ev hev ht hack
      simp only [List.mem_cons, List.mem_singleton, List.mem_nil_iff, or_false] at hev
      rcases hev with h | h | h <;> subst h
      · simp [IsAck, sampleConfig] at hack
      · simp [IsAck, botText, sampleShared] at hack
      · exact absurd ht (by decide))).2.2.2
    [⟨0, 1, .ok ⟨"text", "mallory", "Ack"⟩⟩, ⟨2, 3, .ok (botText "Signature_Response:u2")⟩]
    ⟨5000000001, 5000000002, .ok (botText "Ack")⟩ [] rfl rfl rfl
    (by
      intro x hx
      simp only [List.mem_cons, List.mem_singleton, List.mem_nil_iff, or_false] at hx
      rcases hx with h | h <;> subst h
      · exact ⟨by decide, _, rfl, Or.inl (Or.inr (by decide))⟩
      · exact ⟨by decide, _, rfl, Or.inr (Or.inr ⟨⟨"u2", "cert2"⟩, rfl, by decide⟩)⟩)
    (by decide)

/-! ## The filters -/

/-- C5: two streams that differ only in the bodies of messages whose sender is not
`config.BotName` or whose content type is not "text", with the same clock readings at the
checks, give the same outcome of `GetSignedKey`: the same return value, the same effects
in the same order, the same ack flag and number of reads. In particular a message that a
filter removes, whatever its body (the Ack text, a matching or a malformed Response
frame), read in an iteration that passes the check while the call has not returned,
leaves the ack flag and the effects as they are (the prober is not stopped, nothing is
sent) and does not end the loop. -/
theorem getSignedKey_filter_noninterference (sh : Shared) (w : World) (config : ConfigFile)
    (request : SignatureRequest) :
    (∀ in1 in2, List.Forall₂ (SameUpToFiltered config) in1 in2 →
      GetSignedKey sh w config request in1 = GetSignedKey sh w config request in2) ∧
    (∀ pre ev msg, (GetSignedKey sh w config request pre).ret = none →
      ev.elapsed ≤ deadline → ev.read = .ok msg → Filtered config msg →
      GetSignedKey sh w config request (pre ++ [ev]) =
        ⟨none, (GetSignedKey sh w config request pre).effects,
          (GetSignedKey sh w config request pre).hasBeenAcked,
          (GetSignedKey sh w config request pre).reads + 1⟩) := by
  constructor
  · intro in1 in2 h
    unfold GetSignedKey
    rw [loop_congr sh w config request false in1 in2 h]
  · intro pre ev msg hrun ht hr hf
    obtain ⟨hs, hl⟩ := started_of_ret_none sh w config request pre hrun
    rw [getSignedKey_eq sh w config request _ hs hl] at hrun ⊢
    simp only at hrun
    rw [getSignedKey_eq sh w config request _ hs hl,
      loop_append_skip sh w config request false pre ev msg hrun ht hr
        (handleMessage_filtered sh w config request _ msg hf)]

theorem getSignedKey_filter_noninterference_witness :
    GetSignedKey sampleShared sampleWorld sampleConfig sampleRequest
        [⟨0, 1, .ok ⟨"text", "mallory", "Ack"⟩⟩, ⟨2, 3, .ok (botText "Ack")⟩] =
      GetSignedKey sampleShared sampleWorld sampleConfig sampleRequest
        [⟨0, 7, .ok ⟨"text", "mallory", "Signature_Response:u1"⟩⟩,
          ⟨2, 3, .ok (botText "Ack")⟩] :=
  (getSignedKey_filter_noninterference sampleShared sampleWorld sampleConfig sampleRequest).1
    [⟨0, 1, .ok ⟨"text", "mallory", "Ack"⟩⟩, ⟨2, 3, .ok (botText "Ack")⟩]
    [⟨0, 7, .ok ⟨"text", "mallory", "Signature_Response:u1"⟩⟩, ⟨2, 3, .ok (botText "Ack")⟩]
    (List.Forall₂.cons ⟨rfl, Or.inr ⟨_, _, rfl, rfl, rfl, rfl, Or.inr (by decide)⟩⟩
      (List.Forall₂.cons ⟨rfl, Or.inl rfl⟩ List.Forall₂.nil))

/-! ## Malformed responses -/

/-- C6: when a text message from `config.BotName` that starts with the Response preamble
and fails to parse is read, in an iteration that passes the check, after the Ack has been
accepted and while the call has not returned, `GetSignedKey` returns the parse error with
the empty response at once: whatever follows in the stream, the effects are those made
before and that read is the last one. -/
theorem getSignedKey_parse_error_after_ack (sh : Shared) (w : World) (config : ConfigFile)
    (request : SignatureRequest) (pre : List Inbound) (ev : Inbound) (post : List Inbound)
    (body : String) (perr : Error)
    (hrun : (GetSignedKey sh w config request pre).ret = none)
    (hacked : (GetSignedKey sh w config request pre).hasBeenAcked = true)
    (hev : FromBot config ev body)
    (hp : HasPrefix body sh.SignatureResponsePreamble = true)
    (hparse : sh.ParseSignatureResponse body = .error perr) :
    GetSignedKey sh w config request (pre ++ ev :: post) =
      ⟨some (SignatureResponse.empty, some perr),
        (GetSignedKey sh w config request pre).effects, true, pre.length + 1⟩ := by
  obtain ⟨hs, hl⟩ := started_of_ret_none sh w config request pre hrun
  rw [getSignedKey_eq sh w config request _ hs hl] at hrun hacked ⊢
  simp only at hrun hacked
  rw [getSignedKey_eq sh w config request _ hs hl, loop_append, hrun]
  simp only
  rw [hacked, loop_cons_ok sh w config request true ev post _ hev.1 hev.2,
    handleMessage_response sh w config request true body (Or.inr rfl) hp, hparse]
  simp [loop_reads sh w config request false pre hrun]

theorem getSignedKey_parse_error_after_ack_witness :
    GetSignedKey sampleShared sampleWorld sampleConfig sampleRequest
        ([⟨0, 1, .ok (botText "Ack")⟩] ++ ⟨2, 3, .ok (botText "Signature_Response:")⟩ ::
          [⟨4, 5, .ok (botText "Signature_Response:u1")⟩]) =
      ⟨some (SignatureResponse.empty, some "invalid character"),
        (GetSignedKey sampleShared sampleWorld sampleConfig sampleRequest
          [⟨0, 1, .ok (botText "Ack")⟩]).effects, true, 2⟩ :=
  getSignedKey_parse_error_after_ack sampleShared sampleWorld sampleConfig sampleRequest
    [⟨0, 1, .ok (botText "Ack")⟩] ⟨2, 3, .ok (botText "Signature_Response:")⟩
    [⟨4, 5, .ok (botText "Signature_Response:u1")⟩] "Signature_Response:" "invalid character"
    (by decide) (by decide) ⟨by decide, rfl⟩ (by decide) rfl

/-! ## Stopping the prober -/

/-- C7, as stated, fails: the first read fails, `GetSignedKey` returns the read error after
the prober has been started, and the prober has not been sent its stop signal. -/
theorem getSignedKey_error_prober_running_counterexample :
    (GetSignedKey sampleShared sampleWorld sampleConfig sampleRequest
        [⟨0, 1, .error "EOF"⟩]).ret =
      some (SignatureResponse.empty, some "failed to read message: EOF") ∧
    Effect.startProber ∈ (GetSignedKey sampleShared sampleWorld sampleConfig sampleRequest
      [⟨0, 1, .error "EOF"⟩]).effects ∧
    Effect.stopProber ∉ (GetSignedKey sampleShared sampleWorld sampleConfig sampleRequest
      [⟨0, 1, .error "EOF"⟩]).effects := by
  decide

/-- C7, amended: when `GetSignedKey` returns a non-nil error after the prober has been
started, it returns the empty response, and the prober has been sent its stop signal
before the return exactly when the ack flag is set, that is exactly when an Ack sentinel
from `config.BotName` was processed earlier in the invocation; and the prober exits only
on that signal. -/
theorem getSignedKey_error_prober_stopped_iff (sh : Shared) (w : World) (config : ConfigFile)
    (request : SignatureRequest) (inbound : List Inbound) (r : SignatureResponse) (err : Error)
    (hret : (GetSignedKey sh w config request inbound).ret = some (r, some err))
    (hstarted : Effect.startProber ∈ (GetSignedKey sh w config request inbound).effects) :
    r = SignatureResponse.empty ∧
    (Effect.stopProber ∈ (GetSignedKey sh w config request inbound).effects ↔
      (GetSignedKey sh w config request inbound).hasBeenAcked = true) ∧
    ((GetSignedKey sh w config request inbound).hasBeenAcked = true ↔
      ∃ pre ev post, inbound = pre ++ ev :: post ∧ FromBot config ev sh.Ack ∧
        (GetSignedKey sh w config request pre).ret = none) ∧
    (∀ stops, ProberEvent.exit ∈ prober sh config stops → true ∈ stops) := by
  obtain ⟨hs, hl⟩ := started_of_effect sh w config request inbound _ hstarted
  refine ⟨?_, ?_, ?_, fun stops h => proberLoop_exit sh config stops 0 h⟩
  · rw [getSignedKey_eq sh w config request inbound hs hl] at hret
    exact loop_error_empty sh w config request false inbound r err hret
  · rw [getSignedKey_eq sh w config request inbound hs hl]
    simp only
    rcases loop_false_cases sh w config request inbound with ⟨h1, h2⟩ | ⟨h1, _, h3⟩
    · simp [h1, h2]
    · rcases h3 with ⟨e, _, heff, _⟩ | ⟨m, _, heff⟩ <;> simp [h1, heff]
  · constructor
    · intro hacked
      rw [getSignedKey_eq sh w config request inbound hs hl] at hacked
      simp only at hacked
      rcases loop_false_cases sh w config request inbound with
        ⟨h1, _⟩ | ⟨_, ⟨pre, ev, post, hsplit, hack, hpre⟩, _⟩
      · rw [h1] at hacked; cases hacked
      · refine ⟨pre, ev, post, hsplit, hack, ?_⟩
        rw [getSignedKey_eq sh w config request pre hs hl, hpre]
    · rintro ⟨pre, ev, post, hsplit, hack, hrun⟩
      rw [getSignedKey_eq sh w config request pre hs hl] at hrun
      rw [getSignedKey_eq sh w config request inbound hs hl, hsplit]
      exact (loop_ack_sets sh w config request pre ev post hrun hack).1

theorem getSignedKey_error_prober_stopped_iff_witness :
    Effect.stopProber ∈ (GetSignedKey sampleShared sampleWorld sampleConfig sampleRequest
        [⟨0, 1, .ok (botText "Ack")⟩, ⟨2, 3, .error "EOF"⟩]).effects ↔
      (GetSignedKey sampleShared sampleWorld sampleConfig sampleRequest
        [⟨0, 1, .ok (botText "Ack")⟩, ⟨2, 3, .error "EOF"⟩]).hasBeenAcked = true :=
  (getSignedKey_error_prober_stopped_iff sampleShared sampleWorld sampleConfig sampleRequest
    [⟨0, 1, .ok (botText "Ack")⟩, ⟨2, 3, .error "EOF"⟩] SignatureResponse.empty
    "failed to read message: EOF" (by decide) (by decide)).2.1

/-! ## The probe schedule -/

/-- C8, as stated, fails at the first probe: the goroutine sends it at once, so the
probe with index 0 is the first event, with no sleep before it, and no sleep of 100 ms
occurs; the first sleep lasts 110 ms and follows the first probe. -/
theorem prober_first_probe_counterexample :
    prober sampleShared sampleConfig [false, false] =
      [.probe "team" "AckRequest", .sleep 110, .probe "team" "AckRequest", .sleep 120] ∧
    (prober sampleShared sampleConfig [false, false])[0]? = some (.probe "team" "AckRequest") ∧
    ProberEvent.sleep 100 ∉ prober sampleShared sampleConfig [false, false] := by
  decide

/-- C8, amended: in the trace of the prober the probes are exactly the events at the even
positions below twice their number, so the probe with index `n` is at position `2 * n` and
the probe with index 0 comes first, with no sleep before it; for every `n ≥ 1` the probe
with index `n` is immediately preceded by a sleep of exactly `100 + 10 * n` ms; the
sleeps strictly increase along the trace; nothing follows the exit; and the stop signal
ends the probing: when the receive from `terminateRoutineCh` is first ready at the
iteration after `pre`, the trace is that of the iterations `pre` followed by the exit,
whatever the later iterations would offer, and it holds exactly `pre.length` probes, one
for each iteration before the signal was observed and none after. -/
theorem prober_schedule (sh : Shared) (config : ConfigFile) (stops : List Bool) :
    (∀ (i : Nat), (∃ a b, (prober sh config stops)[i]? = some (ProberEvent.probe a b)) ↔
      (i % 2 = 0 ∧ i / 2 < numProbes (prober sh config stops))) ∧
    (∀ (n : Nat), n < numProbes (prober sh config stops) →
      (prober sh config stops)[2 * n]? =
        some (ProberEvent.probe config.TeamName sh.AckRequest)) ∧
    (∀ (n : Nat), 1 ≤ n → n < numProbes (prober sh config stops) →
      (prober sh config stops)[2 * n - 1]? = some (ProberEvent.sleep (100 + 10 * n))) ∧
    (∀ (i j a b : Nat), i < j → (prober sh config stops)[i]? = some (ProberEvent.sleep a) →
      (prober sh config stops)[j]? = some (ProberEvent.sleep b) → a < b) ∧
    (∀ (i j : Nat), (prober sh config stops)[i]? = some ProberEvent.exit → i < j →
      (prober sh config stops)[j]? = none) ∧
    (∀ pre post, stops = pre ++ true :: post → (∀ b ∈ pre, b = false) →
      prober sh config stops = prober sh config pre ++ [ProberEvent.exit] ∧
        numProbes (prober sh config pre) = pre.length ∧
        numProbes (prober sh config stops) = pre.length) := by
  unfold prober
  refine ⟨?_, ?_, ?_, ?_, ?_, ?_⟩
  · intro i
    constructor
    · rintro ⟨a, b, h⟩
      exact proberLoop_probe_pos sh config stops 0 i a b h
    · rintro ⟨h1, h2⟩
      have := (proberLoop_probe sh config stops 0 (i / 2) h2).1
      have e : 2 * (i / 2) = i := by omega
      rw [e] at this
      exact ⟨_, _, this⟩
  · intro n hn
    exact (proberLoop_probe sh config stops 0 n hn).1
  · intro n h1 hn
    have := (proberLoop_probe sh config stops 0 (n - 1) (by omega)).2
    have e1 : 2 * (n - 1) + 1 = 2 * n - 1 := by omega
    have e2 : 0 + (n - 1) + 1 = n := by omega
    rw [e1, e2] at this
    exact this
  · intro i j a b hij ha hb
    have h1 := proberLoop_sleep_pos sh config stops 0 i a ha
    have h2 := proberLoop_sleep_pos sh config stops 0 j b hb
    omega
  · intro i j hi hij
    have := proberLoop_exit_last sh config stops 0 i hi
    rw [List.getElem?_eq_none_iff]
    omega
  · intro pre post hsplit hpre
    have h1 := proberLoop_append_true sh config pre post 0 hpre
    have h2 := proberLoop_all_false sh config pre 0 hpre
    subst hsplit
    refine ⟨h1, h2, ?_⟩
    rw [h1, numProbes_append_exit, h2]

theorem prober_schedule_witness :
    (prober sampleShared sampleConfig [false, false, false, true, false])[2 * 2 - 1]? =
        some (.sleep (100 + 10 * 2)) ∧
      prober sampleShared sampleConfig [false, false, false, true, false] =
        prober sampleShared sampleConfig [false, false, false] ++ [ProberEvent.exit] ∧
      numProbes (prober sampleShared sampleConfig [false, false, false]) = 3 ∧
      numProbes (prober sampleShared sampleConfig [false, false, false, true, false]) = 3 :=
  ⟨(prober_schedule sampleShared sampleConfig [false, false, false, true, false]).2.2.1 2
      (by decide) (by decide),
    (prober_schedule sampleShared sampleConfig [false, false, false, true, false]).2.2.2.2.2
      [false, false, false] [false] rfl (by decide)⟩

/-! ## The order of the states -/

/-- C9, as stated, fails: a Response frame with the UUID of the request that is read before
any Ack is returned as the result, with a nil error; the ack flag is clear and neither
has the prober been stopped nor the Request frame been sent. -/
theorem getSignedKey_response_while_probing_counterexample :
    GetSignedKey sampleShared sampleWorld sampleConfig sampleRequest
        [⟨0, 1, .ok (botText "Signature_Response:u1")⟩] =
      ⟨some (⟨"u1", "cert1"⟩, none), [.startProber], false, 1⟩ := by
  decide

/-- C9, amended: `GetSignedKey` returns a response with a nil error either with the ack
flag set, the prober stopped and the Request frame sent earlier in the invocation, or
with the flag clear and nothing done but starting the prober; and a Response frame from
`config.BotName` with the UUID of the request, read in an iteration that passes the check
while the call has not returned, is returned as the result whether or not an Ack has been
accepted, leaving the effects and the flag as they were. (The Ack sentinel is assumed not
to start with the Response preamble.) -/
theorem getSignedKey_ok_states (sh : Shared) (w : World) (config : ConfigFile)
    (request : SignatureRequest)
    (hd : HasPrefix sh.Ack sh.SignatureResponsePreamble = false) :
    (∀ inbound resp, (GetSignedKey sh w config request inbound).ret = some (resp, none) →
      ((GetSignedKey sh w config request inbound).hasBeenAcked = true ∧
        ∃ m, w.marshal request = .ok m ∧
          (GetSignedKey sh w config request inbound).effects =
            [.startProber, .stopProber,
              .sendMessage config.TeamName (sh.SignatureRequestPreamble ++ m)]) ∨
      ((GetSignedKey sh w config request inbound).hasBeenAcked = false ∧
        (GetSignedKey sh w config request inbound).effects = [.startProber])) ∧
    (∀ pre ev post resp, (GetSignedKey sh w config request pre).ret = none →
      ev.elapsed ≤ deadline → IsResponse sh config ev resp → resp.UUID = request.UUID →
      GetSignedKey sh w config request (pre ++ ev :: post) =
        ⟨some (resp, none), (GetSignedKey sh w config request pre).effects,
          (GetSignedKey sh w config request pre).hasBeenAcked, pre.length + 1⟩) := by
  constructor
  · intro inbound resp h
    obtain ⟨hs, hl⟩ := started_of_ok sh w config request inbound resp h
    rw [getSignedKey_eq sh w config request inbound hs hl] at h ⊢
    simp only at h ⊢
    rcases loop_false_cases sh w config request inbound with ⟨h1, h2⟩ | ⟨h1, _, h3⟩
    · right; simp [h1, h2]
    · left
      rcases h3 with ⟨e, _, _, hret⟩ | ⟨m, hm, heff⟩
      · rw [hret] at h; simp at h
      · exact ⟨h1, m, hm, by rw [heff]⟩
  · intro pre ev post resp hrun ht hresp hu
    obtain ⟨hs, hl⟩ := started_of_ret_none sh w config request pre hrun
    rw [getSignedKey_eq sh w config request _ hs hl] at hrun ⊢
    simp only at hrun
    obtain ⟨body, hb, hp, hparse⟩ := hresp
    rw [getSignedKey_eq sh w config request _ hs hl, loop_append, hrun]
    simp only
    rw [loop_cons_ok sh w config request _ ev post _ ht hb,
      handleMessage_response sh w config request _ body (Or.inl (ne_of_hasPrefix hd hp)) hp,
      hparse]
    simp [hu, loop_reads sh w config request false pre hrun]

theorem getSignedKey_ok_states_witness :
    GetSignedKey sampleShared sampleWorld sampleConfig sampleRequest
        ([⟨0, 1, .ok (botText "Signature_Response:u2")⟩] ++
          ⟨2, 3, .ok (botText "Signature_Response:u1")⟩ :: [⟨4, 5, .ok (botText "Ack")⟩]) =
      ⟨some (⟨"u1", "cert1"⟩, none),
        (GetSignedKey sampleShared sampleWorld sampleConfig sampleRequest
          [⟨0, 1, .ok (botText "Signature_Response:u2")⟩]).effects,
        (GetSignedKey sampleShared sampleWorld sampleConfig sampleRequest
          [⟨0, 1, .ok (botText "Signature_Response:u2")⟩]).hasBeenAcked, 2⟩ :=
  (getSignedKey_ok_states sampleShared sampleWorld sampleConfig sampleRequest (by decide)).2
    [⟨0, 1, .ok (botText "Signature_Response:u2")⟩]
    ⟨2, 3, .ok (botText "Signature_Response:u1")⟩ [⟨4, 5, .ok (botText "Ack")⟩]
    ⟨"u1", "cert1"⟩ (by decide) (by decide) ⟨"Signature_Response:u1", rfl, by decide, rfl⟩ rfl

/-! ## Loading the configuration -/

/-- C10: `LoadConfig` returns a nil error if and only if the filename starts with
"/keybase/", the KBFS read succeeds, the bytes unmarshal into a `ConfigFile` without
error, and both `TeamName` and `BotName` are non-empty; for every filename that does not
start with "/keybase/" it returns an error and the zero `ConfigFile`, and asks KBFS for
no file. -/
theorem loadConfig_nil_error_iff (fs : KBFS) (kbfsFilename : String) :
    ((LoadConfig fs kbfsFilename).err = none ↔
      (HasPrefix kbfsFilename "/keybase/" = true ∧
        ∃ bytes, fs.KBFSRead kbfsFilename = .ok bytes ∧ (fs.Unmarshal bytes).2 = none ∧
          (fs.Unmarshal bytes).1.TeamName ≠ "" ∧ (fs.Unmarshal bytes).1.BotName ≠ "")) ∧
    (HasPrefix kbfsFilename "/keybase/" = false →
      (LoadConfig fs kbfsFilename).err ≠ none ∧
        (LoadConfig fs kbfsFilename).cf = ConfigFile.zero ∧
        (LoadConfig fs kbfsFilename).kbfsReads = []) := by
  unfold LoadConfig
  by_cases hp : HasPrefix kbfsFilename "/keybase/" = true
  swap
  · simp [hp]
  cases hr : fs.KBFSRead kbfsFilename with
  | error e => simp [hp]
  | ok bytes =>
    rcases hu : fs.Unmarshal bytes with ⟨cf, _ | e⟩
    · by_cases h1 : cf.TeamName = ""
      · simp [hp, hu, h1]
      · by_cases h2 : cf.BotName = ""
        · simp [hp, hu, h1, h2]
        · simp [hp, hu, h1, h2]
    · simp [hp, hu]

theorem loadConfig_nil_error_iff_witness :
    (LoadConfig sampleKBFS "/tmp/kssh-client.config").err ≠ none ∧
      (LoadConfig sampleKBFS "/tmp/kssh-client.config").cf = ConfigFile.zero ∧
      (LoadConfig sampleKBFS "/tmp/kssh-client.config").kbfsReads = [] :=
  (loadConfig_nil_error_iff sampleKBFS "/tmp/kssh-client.config").2 (by decide)

end Kssh
